import Mathlib

/-!
Verification of the kopilot streaming adapter (`src/source/agent/copilotAgent.ts`),
chat controller (`src/source/hooks/useChat.ts`, provided as `src/unnamed/part_006`)
and mention extraction (`src/source/core/mentions.ts`, concatenated into
`src/source/core/configLoader.ts`).

The embedding translates the TypeScript sources directly:

* `Queue`/`Queue.push` mirror `createAsyncQueue`: a FIFO of typed items that is
  closed by the first `done`/`error` item, after which every push is ignored.
  The waiter mechanism of the source only transfers items to a blocked consumer
  in FIFO order, so the sequence of items the consumer observes equals the list
  of accepted pushes; the model records that list.
* `handleSessionEvent` mirrors the `session.on` switch of `streamResponse`,
  including the `sawDelta` flag and the idle-timer resets (`resetTimer`).
* `ProducerAction.timerFire` models the `setTimeout` callback firing.
* `consume` mirrors `iterate`: yield `data` values until a `done` (success) or
  `error` (failure) item; an exhausted list with no terminal item means the
  consumer is still blocked awaiting the next event.
-/

namespace Kopilot

/-- Items of the internal async queue (`QueueItem` in the source). -/
inductive QueueItem where
  | data (value : String)
  | done
  | error (msg : String)
deriving DecidableEq, Repr

/-- State of `createAsyncQueue`: accepted items in push order, plus the
`closed` flag. -/
structure Queue where
  items : List QueueItem
  closed : Bool
deriving DecidableEq, Repr

/-- The `push` function of `createAsyncQueue`: ignored when closed; a
`done`/`error` item closes the queue. -/
def Queue.push (q : Queue) (item : QueueItem) : Queue :=
  if q.closed then q
  else
    { items := q.items ++ [item]
      closed :=
        match item with
        | .done => true
        | .error _ => true
        | .data _ => q.closed }

/-- Session events, mirroring the cases of the `switch` in `streamResponse`.
Payload fields are restricted to those the adapter and the chat controller
read. -/
inductive SessionEvent where
  | assistantMessageDelta (deltaContent : Option String)
  | assistantMessage (content : Option String)
  | assistantUsage
  | assistantReasoningDelta (deltaContent : String)
  | assistantReasoning
  | assistantTurnStart
  | assistantTurnEnd
  | assistantIntent (intent : String)
  | toolExecutionStart (toolName : Option String)
  | toolExecutionComplete
  | toolExecutionProgress
  | sessionCompactionStart
  | sessionCompactionComplete (success : Bool) (error : Option String)
  | sessionTruncation (messagesRemoved : Nat)
  | subagentStarted (agentName : String) (agentDisplayName : Option String)
  | subagentCompleted (agentName : String)
  | subagentFailed (agentName : String) (error : String)
  | hookStart
  | hookEnd
  | sessionIdle
  | sessionError (message : Option String)
  | unknownEvent
deriving DecidableEq, Repr

/-- An event is terminal when its case closes the queue (`session.idle`,
`session.error`). -/
def SessionEvent.isTerminal : SessionEvent → Bool
  | .sessionIdle => true
  | .sessionError _ => true
  | _ => false

/-- An event is a message delta (`assistant.message_delta`). -/
def SessionEvent.isDelta : SessionEvent → Bool
  | .assistantMessageDelta _ => true
  | _ => false

/-- Adapter state: the queue, the `sawDelta` flag, plus the idle-timer
bookkeeping of `streamResponse` (`timerPending`: an armed `setTimeout` exists;
`timerGen`: how many times a timer has been armed, counting the `resetTimer`
calls that actually arm). -/
structure AdapterState where
  queue : Queue
  sawDelta : Bool
  timerPending : Bool
  timerGen : Nat
deriving DecidableEq, Repr

/-- The `resetTimer` closure: if `options.idleTimeoutMs` is truthy (nonzero),
clear any pending timer and arm a fresh one. `T = 0` models a falsy/unset
`idleTimeoutMs`. -/
def resetTimer (T : Nat) (s : AdapterState) : AdapterState :=
  if T ≠ 0 then { s with timerPending := true, timerGen := s.timerGen + 1 }
  else s

/-- The message a firing idle timer passes to `queue.fail`. -/
def timeoutMessage (T : Nat) : String :=
  "Response timed out after " ++ toString T ++ "ms."

/-- The event handler registered by `session.on` in `streamResponse`,
as a transition on the adapter state. -/
def handleSessionEvent (T : Nat) (s : AdapterState) : SessionEvent → AdapterState
  | .assistantMessageDelta d =>
      resetTimer T
        { s with sawDelta := true
                 queue := s.queue.push (.data (d.getD "")) }
  | .assistantMessage c =>
      resetTimer T
        (match c with
         | some str => if s.sawDelta then s else { s with queue := s.queue.push (.data str) }
         | none => s)
  | .sessionIdle => { s with queue := s.queue.push .done }
  | .sessionError m => { s with queue := s.queue.push (.error (m.getD "Unknown error")) }
  | _ => resetTimer T s

/-- Producer-side actions: a session event arriving, or the armed idle timer
firing. -/
inductive ProducerAction where
  | event (e : SessionEvent)
  | timerFire
deriving DecidableEq, Repr

/-- One producer action. A timer can only fire while armed; firing calls
`queue.fail` with the timeout message and consumes the pending timer. -/
def stepAction (T : Nat) (s : AdapterState) : ProducerAction → AdapterState
  | .event e => handleSessionEvent T s e
  | .timerFire =>
      if s.timerPending then
        { s with queue := s.queue.push (.error (timeoutMessage T))
                 timerPending := false }
      else s

/-- Adapter state at the start of `streamResponse`: empty open queue, no delta
seen, and the construction-time `resetTimer()` call applied. -/
def initState (T : Nat) : AdapterState :=
  resetTimer T { queue := { items := [], closed := false }
                 sawDelta := false, timerPending := false, timerGen := 0 }

/-- Run a list of producer actions from a given state. -/
def runFrom (T : Nat) (s : AdapterState) (as : List ProducerAction) : AdapterState :=
  as.foldl (stepAction T) s

/-- Run a list of producer actions from the initial state. -/
def runActions (T : Nat) (as : List ProducerAction) : AdapterState :=
  runFrom T (initState T) as

/-- Run a list of plain session events (no timer firing). -/
def runEvents (T : Nat) (es : List SessionEvent) : AdapterState :=
  runActions T (es.map .event)

/-- Outcome of the consumer's iteration. -/
inductive StreamOutcome where
  | success
  | failure (msg : String)
  | blocked
deriving DecidableEq, Repr

/-- The consumer loop of `iterate`: yield data values until the first terminal
item; `blocked` means no terminal item has arrived yet (the consumer would
still be awaiting `next()`). -/
def consume : List QueueItem → List String × StreamOutcome
  | [] => ([], .blocked)
  | .data v :: rest => ((consume rest).1.cons v, (consume rest).2)
  | .done :: _ => ([], .success)
  | .error m :: _ => ([], .failure m)

/-- Chunks yielded to the consumer after the given events are delivered. -/
def chunksE (T : Nat) (es : List SessionEvent) : List String :=
  (consume (runEvents T es).queue.items).1

/-- Outcome observed by the consumer after the given events are delivered. -/
def outcomeE (T : Nat) (es : List SessionEvent) : StreamOutcome :=
  (consume (runEvents T es).queue.items).2

/-- A queue item is terminal when pushing it closes the queue. -/
def QueueItem.isTerminal : QueueItem → Bool
  | .done => true
  | .error _ => true
  | .data _ => false

/-- Chunk text a single event contributes to the queue while it is open,
given the current `sawDelta` flag. -/
def eventEmit (saw : Bool) : SessionEvent → List String
  | .assistantMessageDelta d => [d.getD ""]
  | .assistantMessage (some c) => if saw then [] else [c]
  | _ => []

/-- Chunk texts a list of events contributes while the queue stays open. -/
def emitted (saw : Bool) : List SessionEvent → List String
  | [] => []
  | e :: es => eventEmit saw e ++ emitted (saw || e.isDelta) es

theorem Queue.push_of_closed (q : Queue) (i : QueueItem) (h : q.closed = true) :
    q.push i = q := by
  simp [Queue.push, h]

theorem Queue.push_closed_eq (q : Queue) (i : QueueItem) :
    (q.push i).closed = (q.closed || i.isTerminal) := by
  cases i <;> simp [Queue.push, QueueItem.isTerminal] <;> split <;> simp_all

theorem resetTimer_queue (T : Nat) (s : AdapterState) :
    (resetTimer T s).queue = s.queue := by
  unfold resetTimer; split <;> rfl

theorem resetTimer_sawDelta (T : Nat) (s : AdapterState) :
    (resetTimer T s).sawDelta = s.sawDelta := by
  unfold resetTimer; split <;> rfl

theorem runFrom_nil (T : Nat) (s : AdapterState) : runFrom T s [] = s := rfl

theorem runFrom_cons (T : Nat) (s : AdapterState) (a : ProducerAction)
    (as : List ProducerAction) :
    runFrom T s (a :: as) = runFrom T (stepAction T s a) as := rfl

theorem runFrom_append (T : Nat) (s : AdapterState) (as bs : List ProducerAction) :
    runFrom T s (as ++ bs) = runFrom T (runFrom T s as) bs := by
  simp [runFrom, List.foldl_append]

theorem stepAction_queue_of_closed (T : Nat) (s : AdapterState) (a : ProducerAction)
    (h : s.queue.closed = true) :
    (stepAction T s a).queue = s.queue := by
  cases a with
  | timerFire =>
      simp only [stepAction]
      split
      · simp [Queue.push_of_closed _ _ h]
      · rfl
  | event e =>
      cases e <;>
        simp [stepAction, handleSessionEvent, resetTimer_queue,
          Queue.push_of_closed _ _ h]
      case assistantMessage c =>
        cases c with
        | none => simp [resetTimer_queue]
        | some str =>
            by_cases hsaw : s.sawDelta <;>
              simp [hsaw, resetTimer_queue, Queue.push_of_closed _ _ h]

theorem runFrom_queue_of_closed (T : Nat) (s : AdapterState) (as : List ProducerAction)
    (h : s.queue.closed = true) :
    (runFrom T s as).queue = s.queue := by
  induction as generalizing s with
  | nil => rfl
  | cons a as ih =>
      rw [runFrom_cons]
      rw [ih _ (by rw [stepAction_queue_of_closed T s a h]; exact h)]
      exact stepAction_queue_of_closed T s a h

theorem handle_step_open (T : Nat) (s : AdapterState) (e : SessionEvent)
    (he : e.isTerminal = false) (hq : s.queue.closed = false) :
    (handleSessionEvent T s e).queue.items
        = s.queue.items ++ (eventEmit s.sawDelta e).map QueueItem.data
    ∧ (handleSessionEvent T s e).queue.closed = false
    ∧ (handleSessionEvent T s e).sawDelta = (s.sawDelta || e.isDelta) := by
  cases e
  case sessionIdle => simp [SessionEvent.isTerminal] at he
  case sessionError m => simp [SessionEvent.isTerminal] at he
  case assistantMessage c =>
    cases c
    case none =>
      refine ⟨?_, ?_, ?_⟩ <;>
        simp [handleSessionEvent, resetTimer_queue, resetTimer_sawDelta, hq,
          eventEmit, SessionEvent.isDelta]
    case some str =>
      by_cases hsaw : s.sawDelta <;>
        refine ⟨?_, ?_, ?_⟩ <;>
          simp [handleSessionEvent, hsaw, resetTimer_queue, resetTimer_sawDelta,
            Queue.push, hq, eventEmit, SessionEvent.isDelta]
  all_goals
    refine ⟨?_, ?_, ?_⟩ <;>
      simp [handleSessionEvent, resetTimer_queue, resetTimer_sawDelta, Queue.push,
        hq, eventEmit, SessionEvent.isDelta]

theorem runFrom_open (T : Nat) (es : List SessionEvent) (s : AdapterState)
    (hterm : ∀ e ∈ es, e.isTerminal = false) (hq : s.queue.closed = false) :
    (runFrom T s (es.map .event)).queue.items
        = s.queue.items ++ (emitted s.sawDelta es).map QueueItem.data
    ∧ (runFrom T s (es.map .event)).queue.closed = false
    ∧ (runFrom T s (es.map .event)).sawDelta = (s.sawDelta || es.any (·.isDelta)) := by
  induction es generalizing s with
  | nil => simp [runFrom, emitted, hq]
  | cons e es ih =>
      have he : e.isTerminal = false := hterm e (List.mem_cons_self e es)
      have hstep := handle_step_open T s e he hq
      have hrec := ih (handleSessionEvent T s e)
        (fun x hx => hterm x (List.mem_cons_of_mem e hx)) hstep.2.1
      rw [List.map_cons, runFrom_cons]
      have hq2 : stepAction T s (.event e) = handleSessionEvent T s e := rfl
      rw [hq2]
      refine ⟨?_, hrec.2.1, ?_⟩
      · rw [hrec.1, hstep.1, hstep.2.2]
        simp [emitted, List.append_assoc]
      · rw [hrec.2.2, hstep.2.2]
        simp [Bool.or_assoc]

theorem consume_data_append (vs : List String) (rest : List QueueItem) :
    consume (vs.map QueueItem.data ++ rest)
      = (vs ++ (consume rest).1, (consume rest).2) := by
  induction vs with
  | nil => simp
  | cons v vs ih => simp [consume, ih]

theorem consume_data_only (vs : List String) :
    consume (vs.map QueueItem.data) = (vs, .blocked) := by
  have h := consume_data_append vs []
  simpa [consume] using h

theorem emitted_delta_list (ds : List (Option String)) :
    ∀ saw : Bool,
      emitted saw (ds.map SessionEvent.assistantMessageDelta)
        = ds.map (fun d => d.getD "") := by
  induction ds with
  | nil => intro saw; rfl
  | cons d ds ih =>
      intro saw
      simp [emitted, eventEmit, SessionEvent.isDelta, ih]

/-- C1: for a finite stream of `assistant.message_delta` events followed by
`session.idle` (no send failure, no timer firing), the chunks yielded to the
consumer are exactly the delta contents, one chunk per delta, in arrival
order — hence their concatenation equals the concatenation of the delta
contents with nothing dropped, duplicated, reordered or coalesced — and the
iteration ends successfully. -/
theorem C1_delta_stream_order (T : Nat) (ds : List (Option String)) :
    chunksE T (ds.map .assistantMessageDelta ++ [.sessionIdle])
        = ds.map (fun d => d.getD "")
    ∧ outcomeE T (ds.map .assistantMessageDelta ++ [.sessionIdle])
        = .success := by
  have hterm : ∀ e ∈ ds.map SessionEvent.assistantMessageDelta, e.isTerminal = false := by
    intro e he
    rcases List.mem_map.1 he with ⟨d, _, rfl⟩
    rfl
  have hq : (initState T).queue.closed = false := by
    unfold initState resetTimer; split <;> rfl
  have hopen := runFrom_open T (ds.map .assistantMessageDelta) (initState T) hterm hq
  have hinit : (initState T).queue.items = [] := by
    unfold initState resetTimer; split <;> rfl
  have hsaw : (initState T).sawDelta = false := by
    unfold initState resetTimer; split <;> rfl
  unfold chunksE outcomeE runEvents runActions
  rw [List.map_append, List.map_singleton, runFrom_append]
  set s1 := runFrom T (initState T) ((ds.map SessionEvent.assistantMessageDelta).map .event)
  have hitems : s1.queue.items = (ds.map (fun d => d.getD "")).map QueueItem.data := by
    rw [hopen.1, hinit, hsaw, emitted_delta_list]
    simp
  have hclosed : s1.queue.closed = false := hopen.2.1
  have hstep : (runFrom T s1 [ProducerAction.event .sessionIdle]).queue
      = s1.queue.push .done := rfl
  rw [hstep]
  have hpush : s1.queue.push .done
      = { items := s1.queue.items ++ [QueueItem.done], closed := true } := by
    simp [Queue.push, hclosed]
  rw [hpush, hitems]
  rw [consume_data_append]
  simp [consume]

theorem runEvents_open_spec (T : Nat) (es : List SessionEvent)
    (hterm : ∀ e ∈ es, e.isTerminal = false) :
    (runEvents T es).queue.items = (emitted false es).map QueueItem.data
    ∧ (runEvents T es).queue.closed = false
    ∧ (runEvents T es).sawDelta = es.any (·.isDelta) := by
  have hq : (initState T).queue.closed = false := by
    unfold initState resetTimer; split <;> rfl
  have hinit : (initState T).queue.items = [] := by
    unfold initState resetTimer; split <;> rfl
  have hsaw : (initState T).sawDelta = false := by
    unfold initState resetTimer; split <;> rfl
  have h := runFrom_open T es (initState T) hterm hq
  refine ⟨?_, h.2.1, ?_⟩
  · rw [show runEvents T es = runFrom T (initState T) (es.map .event) from rfl] at *
    rw [h.1, hinit, hsaw]; rfl
  · rw [show runEvents T es = runFrom T (initState T) (es.map .event) from rfl] at *
    rw [h.2.2, hsaw]; rfl

/-- C2 (amended): a final `assistant.message` event whose `content` is a
string, arriving after a prefix of events containing no terminal
(`session.idle`/`session.error`) event, has its content pushed onto the queue
exactly once if no `assistant.message_delta` was observed before it, and not
pushed at all if at least one delta was observed; correspondingly it yields
exactly one extra chunk, or none, to the consumer.  (The unamended claim —
which drops the no-prior-terminal proviso — is refuted by
`C2_counterexample`.) -/
theorem C2_final_message_once (T : Nat) (pre : List SessionEvent) (c : String)
    (hterm : ∀ e ∈ pre, e.isTerminal = false) :
    (runEvents T (pre ++ [.assistantMessage (some c)])).queue.items
        = (runEvents T pre).queue.items
          ++ (if pre.any (·.isDelta) then [] else [QueueItem.data c])
    ∧ chunksE T (pre ++ [.assistantMessage (some c)])
        = chunksE T pre ++ (if pre.any (·.isDelta) then [] else [c]) := by
  have hpre := runEvents_open_spec T pre hterm
  have hsplit :
      runEvents T (pre ++ [SessionEvent.assistantMessage (some c)])
        = runFrom T (runEvents T pre)
            [ProducerAction.event (.assistantMessage (some c))] := by
    unfold runEvents runActions
    rw [List.map_append, runFrom_append]
    rfl
  have hstep :
      runFrom T (runEvents T pre) [ProducerAction.event (.assistantMessage (some c))]
        = handleSessionEvent T (runEvents T pre) (.assistantMessage (some c)) := rfl
  have hhandle := handle_step_open T (runEvents T pre) (.assistantMessage (some c))
    (by rfl) hpre.2.1
  have hitems :
      (runEvents T (pre ++ [SessionEvent.assistantMessage (some c)])).queue.items
        = (runEvents T pre).queue.items
          ++ (if pre.any (·.isDelta) then [] else [QueueItem.data c]) := by
    rw [hsplit, hstep, hhandle.1, hpre.2.2]
    by_cases hd : pre.any (·.isDelta) <;> simp [hd, eventEmit]
  refine ⟨hitems, ?_⟩
  unfold chunksE
  rw [hitems, hpre.1]
  by_cases hd : pre.any (·.isDelta)
  · simp only [hd, if_pos, List.append_nil]
  · simp only [hd, if_neg, Bool.false_eq_true, not_false_iff, if_false]
    rw [show (emitted false pre).map QueueItem.data ++ [QueueItem.data c]
          = ((emitted false pre) ++ [c]).map QueueItem.data by simp]
    rw [consume_data_only, consume_data_only]

/-- C2 witness: with a prior delta `"a"`, the final message `"hi"` adds no
queue item. -/
theorem C2_final_message_once_witness :
    (runEvents 0 ([SessionEvent.assistantMessageDelta (some "a")]
        ++ [.assistantMessage (some "hi")])).queue.items
      = (runEvents 0 [SessionEvent.assistantMessageDelta (some "a")]).queue.items
        ++ (if [SessionEvent.assistantMessageDelta (some "a")].any (·.isDelta)
            then [] else [QueueItem.data "hi"])
    ∧ chunksE 0 ([SessionEvent.assistantMessageDelta (some "a")]
        ++ [.assistantMessage (some "hi")])
      = chunksE 0 [SessionEvent.assistantMessageDelta (some "a")]
        ++ (if [SessionEvent.assistantMessageDelta (some "a")].any (·.isDelta)
            then [] else ["hi"]) :=
  C2_final_message_once 0 [SessionEvent.assistantMessageDelta (some "a")] "hi"
    (by decide)

/-- C2 counterexample to the claim as stated: in the sequence
`[session.idle, assistant.message "hi"]` no delta is ever observed, yet the
final message's content is not enqueued at all (the queue is already closed),
and no `"hi"` chunk is yielded. -/
theorem C2_counterexample :
    (runEvents 0 [SessionEvent.sessionIdle,
        SessionEvent.assistantMessage (some "hi")]).queue.items.count
        (QueueItem.data "hi") = 0
    ∧ chunksE 0 [SessionEvent.sessionIdle,
        SessionEvent.assistantMessage (some "hi")] = [] := by
  decide

/-- C3 (amended): if a `session.error` event arrives after a prefix of events
containing no terminal event, the consumer's iteration fails with the event's
message (`"Unknown error"` when the message field is absent), and the chunks
yielded are exactly those of the prefix — nothing arising from events
delivered after the `session.error` is ever yielded.  (The unamended claim —
for every sequence containing a `session.error` anywhere — is refuted by
`C3_counterexample`.) -/
theorem C3_error_terminates (T : Nat) (pre post : List SessionEvent)
    (m : Option String) (hterm : ∀ e ∈ pre, e.isTerminal = false) :
    outcomeE T (pre ++ .sessionError m :: post)
        = .failure (m.getD "Unknown error")
    ∧ chunksE T (pre ++ .sessionError m :: post) = chunksE T pre := by
  have hpre := runEvents_open_spec T pre hterm
  have hsplit :
      runEvents T (pre ++ SessionEvent.sessionError m :: post)
        = runFrom T
            (handleSessionEvent T (runEvents T pre) (.sessionError m))
            (post.map .event) := by
    unfold runEvents runActions
    rw [show (pre ++ SessionEvent.sessionError m :: post)
          = (pre ++ [SessionEvent.sessionError m]) ++ post by simp]
    rw [List.map_append, runFrom_append, List.map_append, runFrom_append]
    rfl
  have herr :
      (handleSessionEvent T (runEvents T pre) (.sessionError m)).queue
        = { items := (runEvents T pre).queue.items
              ++ [QueueItem.error (m.getD "Unknown error")]
            closed := true } := by
    simp [handleSessionEvent, Queue.push, hpre.2.1]
  have hclosed :
      (handleSessionEvent T (runEvents T pre) (.sessionError m)).queue.closed
        = true := by rw [herr]
  have hpost := runFrom_queue_of_closed T _ (post.map .event) hclosed
  have hitems :
      (runEvents T (pre ++ SessionEvent.sessionError m :: post)).queue.items
        = (runEvents T pre).queue.items
          ++ [QueueItem.error (m.getD "Unknown error")] := by
    rw [hsplit, hpost, herr]
  constructor
  · unfold outcomeE
    rw [hitems, hpre.1, consume_data_append]
    simp [consume]
  · unfold chunksE
    rw [hitems, hpre.1, consume_data_append, consume_data_only]
    simp [consume]

/-- C3 witness: a delta `"a"` followed by an error with no message fails with
`"Unknown error"` after yielding `"a"`. -/
theorem C3_error_terminates_witness :
    outcomeE 0 ([SessionEvent.assistantMessageDelta (some "a")]
        ++ .sessionError none :: [SessionEvent.assistantMessageDelta (some "b")])
      = .failure ((none : Option String).getD "Unknown error")
    ∧ chunksE 0 ([SessionEvent.assistantMessageDelta (some "a")]
        ++ .sessionError none :: [SessionEvent.assistantMessageDelta (some "b")])
      = chunksE 0 [SessionEvent.assistantMessageDelta (some "a")] :=
  C3_error_terminates 0 [SessionEvent.assistantMessageDelta (some "a")]
    [SessionEvent.assistantMessageDelta (some "b")] none (by decide)

/-- C10: the queue is one-shot terminal.  Pushing an item closes the queue
exactly when the item is `done` or `error`; once the queue of a run is
closed, every further push is ignored, and extending the run by any further
producer actions (events or timer firings, in any interleaving) changes
neither the queue nor what the consumer sees — so the first terminal outcome
decides the result and no data pushed after termination is ever yielded. -/
theorem C10_first_terminal_wins (T : Nat) (as bs : List ProducerAction)
    (h : (runActions T as).queue.closed = true) :
    (∀ (q : Queue) (i : QueueItem), (q.push i).closed = (q.closed || i.isTerminal))
    ∧ (∀ i : QueueItem, (runActions T as).queue.push i = (runActions T as).queue)
    ∧ (runActions T (as ++ bs)).queue = (runActions T as).queue
    ∧ consume (runActions T (as ++ bs)).queue.items
        = consume (runActions T as).queue.items := by
  have hext : (runActions T (as ++ bs)).queue = (runActions T as).queue := by
    unfold runActions
    rw [runFrom_append]
    exact runFrom_queue_of_closed T _ _ h
  exact ⟨fun q i => Queue.push_closed_eq q i,
    fun i => Queue.push_of_closed _ i h, hext, by rw [hext]⟩

/-- C10 witness: an idle timer firing after `session.idle` leaves the queue —
and hence the successful outcome — unchanged. -/
theorem C10_first_terminal_wins_witness :
    (runActions 100 ([ProducerAction.event .sessionIdle]
        ++ [ProducerAction.timerFire])).queue
      = (runActions 100 [ProducerAction.event .sessionIdle]).queue :=
  (C10_first_terminal_wins 100 [ProducerAction.event .sessionIdle]
    [ProducerAction.timerFire] (by decide)).2.2.1

theorem handle_pending (T : Nat) (hT : T ≠ 0) (s : AdapterState) (e : SessionEvent)
    (he : e.isTerminal = false) :
    (handleSessionEvent T s e).timerPending = true := by
  cases e
  case sessionIdle => simp [SessionEvent.isTerminal] at he
  case sessionError m => simp [SessionEvent.isTerminal] at he
  case assistantMessage c =>
    cases c
    case none => simp [handleSessionEvent, resetTimer, hT]
    case some str =>
      by_cases hsaw : s.sawDelta <;> simp [handleSessionEvent, hsaw, resetTimer, hT]
  all_goals simp [handleSessionEvent, resetTimer, hT]

theorem handle_timerGen (T : Nat) (hT : T ≠ 0) (s : AdapterState) (e : SessionEvent)
    (he : e.isTerminal = false) :
    (handleSessionEvent T s e).timerGen = s.timerGen + 1 := by
  cases e
  case sessionIdle => simp [SessionEvent.isTerminal] at he
  case sessionError m => simp [SessionEvent.isTerminal] at he
  case assistantMessage c =>
    cases c
    case none => simp [handleSessionEvent, resetTimer, hT]
    case some str =>
      by_cases hsaw : s.sawDelta <;> simp [handleSessionEvent, hsaw, resetTimer, hT]
  all_goals simp [handleSessionEvent, resetTimer, hT]

theorem runFrom_pending (T : Nat) (hT : T ≠ 0) (es : List SessionEvent)
    (s : AdapterState) (hterm : ∀ e ∈ es, e.isTerminal = false)
    (hp : s.timerPending = true) :
    (runFrom T s (es.map .event)).timerPending = true := by
  induction es generalizing s with
  | nil => simpa [runFrom] using hp
  | cons e es ih =>
      rw [List.map_cons, runFrom_cons]
      exact ih (handleSessionEvent T s e)
        (fun x hx => hterm x (List.mem_cons_of_mem e hx))
        (handle_pending T hT s e (hterm e (List.mem_cons_self e es)))

theorem stepAction_no_timer (s : AdapterState) (a : ProducerAction)
    (hp : s.timerPending = false) :
    (stepAction 0 s a).timerGen = s.timerGen
    ∧ (stepAction 0 s a).timerPending = false := by
  cases a with
  | timerFire => simp [stepAction, hp]
  | event e =>
      cases e
      case assistantMessage c =>
        cases c
        case none => simp [stepAction, handleSessionEvent, resetTimer, hp]
        case some str =>
          by_cases hsaw : s.sawDelta <;>
            simp [stepAction, handleSessionEvent, hsaw, resetTimer, hp]
      all_goals simp [stepAction, handleSessionEvent, resetTimer, hp]

theorem runFrom_no_timer (as : List ProducerAction) (s : AdapterState)
    (hp : s.timerPending = false) :
    (runFrom 0 s as).timerGen = s.timerGen
    ∧ (runFrom 0 s as).timerPending = false := by
  induction as generalizing s with
  | nil => exact ⟨rfl, hp⟩
  | cons a as ih =>
      rw [runFrom_cons]
      have hstep := stepAction_no_timer s a hp
      have hrec := ih (stepAction 0 s a) hstep.2
      exact ⟨by rw [hrec.1, hstep.1], hrec.2⟩

/-- C4 (amended): with a truthy `idleTimeoutMs = T`, an idle timer is armed on
construction, and re-armed after every received event *except* the terminal
`session.idle` and `session.error` events (whose handler cases do not call
`resetTimer`); if the pending timer fires after any run of non-terminal
events, the consumer's iteration fails with the error message
`"Response timed out after Tms."`; and with a falsy `idleTimeoutMs`, no timer
is ever armed under any interleaving of producer actions.  (The unamended
claim — re-armed after *every* event of any type — is refuted by
`C4_counterexample`.) -/
theorem C4_idle_timer (T : Nat) (hT : T ≠ 0) (es : List SessionEvent)
    (hterm : ∀ e ∈ es, e.isTerminal = false) :
    ((initState T).timerPending = true ∧ (initState T).timerGen = 1)
    ∧ (∀ (s : AdapterState) (e : SessionEvent), e.isTerminal = false →
        (handleSessionEvent T s e).timerGen = s.timerGen + 1)
    ∧ (∀ s : AdapterState,
        (handleSessionEvent T s .sessionIdle).timerGen = s.timerGen)
    ∧ (∀ (s : AdapterState) (m : Option String),
        (handleSessionEvent T s (.sessionError m)).timerGen = s.timerGen)
    ∧ (consume (runActions T (es.map .event
        ++ [ProducerAction.timerFire])).queue.items).2
        = .failure (timeoutMessage T)
    ∧ (∀ as : List ProducerAction,
        (runActions 0 as).timerGen = 0 ∧ (runActions 0 as).timerPending = false) := by
  have hinitp : (initState T).timerPending = true := by
    simp [initState, resetTimer, hT]
  have hinitg : (initState T).timerGen = 1 := by
    simp [initState, resetTimer, hT]
  refine ⟨⟨hinitp, hinitg⟩, fun s e he => handle_timerGen T hT s e he,
    fun s => rfl, fun s m => rfl, ?_, ?_⟩
  · have hrun := runEvents_open_spec T es hterm
    have hpend : (runEvents T es).timerPending = true :=
      runFrom_pending T hT es (initState T) hterm hinitp
    have hsplit : runActions T (es.map .event ++ [ProducerAction.timerFire])
        = stepAction T (runEvents T es) .timerFire := by
      unfold runActions
      rw [runFrom_append]
      rfl
    rw [hsplit]
    have hfire : (stepAction T (runEvents T es) .timerFire).queue
        = (runEvents T es).queue.push (.error (timeoutMessage T)) := by
      simp [stepAction, hpend]
    rw [hfire]
    have hpush : (runEvents T es).queue.push (.error (timeoutMessage T))
        = { items := (runEvents T es).queue.items
              ++ [QueueItem.error (timeoutMessage T)]
            closed := true } := by
      simp [Queue.push, hrun.2.1]
    rw [hpush]
    rw [show ({ items := (runEvents T es).queue.items
          ++ [QueueItem.error (timeoutMessage T)], closed := true } : Queue).items
        = (runEvents T es).queue.items ++ [QueueItem.error (timeoutMessage T)]
      from rfl]
    rw [hrun.1, consume_data_append]
    simp [consume]
  · intro as
    exact runFrom_no_timer as (initState 0) (by simp [initState, resetTimer])

/-- C4 witness: with `T = 100` and a single delta event, the timer fires and
the iteration fails with the timeout message. -/
theorem C4_idle_timer_witness :
    (consume (runActions 100
        (([SessionEvent.assistantMessageDelta (some "a")].map ProducerAction.event)
          ++ [ProducerAction.timerFire])).queue.items).2
      = .failure (timeoutMessage 100) :=
  (C4_idle_timer 100 (by decide) [SessionEvent.assistantMessageDelta (some "a")]
    (by decide)).2.2.2.2.1

/-- C4 counterexample to the claim as stated: with `idleTimeoutMs = 100`, one
timer is armed on construction (`timerGen = 1`), and after receiving a
`session.idle` event the count is still `1` — the handler's `session.idle`
case does not call `resetTimer`, so the timer is not re-armed after an event
of that type. -/
theorem C4_counterexample :
    (initState 100).timerGen = 1
    ∧ (runEvents 100 [SessionEvent.sessionIdle]).timerGen = 1 := by
  decide

/-- Result of `await session.send(payload)` in `streamResponse`. -/
inductive SendResult where
  | ok
  | rejected (msg : String)
deriving DecidableEq, Repr

/-- How the consumer of `streamResponse` drives the iteration: consume every
chunk until the stream terminates; abandon iteration (early
`break`/cancellation) after `n` chunks; or throw while processing the chunk
after `n` chunks. -/
inductive ConsumerBehavior where
  | consumeAll
  | stopAfter (n : Nat)
  | throwAfter (n : Nat)
deriving DecidableEq, Repr

/-- Why the `try` body of `streamResponse` finished. -/
inductive ConsumerEnd where
  | completed
  | failedWith (msg : String)
  | abandoned
  | threw
deriving DecidableEq, Repr

/-- Walk the queue items as the consumer's `for await` loop does.  `none` in
the second component means no terminal item was reached and the consumer
still wants more: it is suspended awaiting the next event, a
non-terminating path. -/
def consumeWith : ConsumerBehavior → List QueueItem → List String × Option ConsumerEnd
  | .consumeAll, [] => ([], none)
  | .consumeAll, .data v :: rest =>
      ((consumeWith .consumeAll rest).1.cons v, (consumeWith .consumeAll rest).2)
  | .consumeAll, .done :: _ => ([], some .completed)
  | .consumeAll, .error m :: _ => ([], some (.failedWith m))
  | .stopAfter _, .done :: _ => ([], some .completed)
  | .stopAfter _, .error m :: _ => ([], some (.failedWith m))
  | .stopAfter 0, _ => ([], some .abandoned)
  | .stopAfter (_+1), [] => ([], none)
  | .stopAfter (n+1), .data v :: rest =>
      ((consumeWith (.stopAfter n) rest).1.cons v, (consumeWith (.stopAfter n) rest).2)
  | .throwAfter _, .done :: _ => ([], some .completed)
  | .throwAfter _, .error m :: _ => ([], some (.failedWith m))
  | .throwAfter _, [] => ([], none)
  | .throwAfter 0, .data v :: _ => ([v], some .threw)
  | .throwAfter (n+1), .data v :: rest =>
      ((consumeWith (.throwAfter n) rest).1.cons v, (consumeWith (.throwAfter n) rest).2)

/-- Observable outcome of one whole `streamResponse` call. -/
structure StreamRun where
  yielded : List String
  ended : ConsumerEnd
  blocked : Bool
  unsubscribed : Bool
  timerPendingAtExit : Bool
deriving DecidableEq, Repr

/-- The `finally` block of `streamResponse`: clear a pending idle timer, if
any, and call `unsubscribe()`.  It runs whenever the `try` body finishes, by
normal completion, by a thrown error, or by the generator being closed from
an early exit of the consumer. -/
def finalizeRun (yielded : List String) (ended : ConsumerEnd) : StreamRun :=
  { yielded := yielded, ended := ended, blocked := false
    unsubscribed := true, timerPendingAtExit := false }

/-- One whole `streamResponse` call: the producer actions `as` feed the
queue; `send` is the result of `session.send`; `cb` is the consumer's
behavior.  A rejected send propagates before any chunk is yielded.  When the
consumer ends up suspended forever (`blocked`), the `finally` block never
runs: the subscription stays live and a pending timer stays pending. -/
def streamLifecycle (T : Nat) (send : SendResult) (as : List ProducerAction)
    (cb : ConsumerBehavior) : StreamRun :=
  let s := runActions T as
  match send with
  | .rejected msg => finalizeRun [] (.failedWith msg)
  | .ok =>
      match consumeWith cb s.queue.items with
      | (ys, some e) => finalizeRun ys e
      | (ys, none) =>
          { yielded := ys, ended := .completed, blocked := true
            unsubscribed := false, timerPendingAtExit := s.timerPending }

/-- C5: on every terminating path of `streamResponse` — successful completion
via `session.idle`, failure via `session.error` or an idle-timeout firing,
rejection of `session.send`, early abandonment of the iteration by the
consumer, and the consumer throwing while processing a chunk — the
subscription's `unsubscribe` is invoked and no idle timer is left pending. -/
theorem C5_cleanup (T : Nat) (send : SendResult) (as : List ProducerAction)
    (cb : ConsumerBehavior)
    (h : (streamLifecycle T send as cb).blocked = false) :
    (streamLifecycle T send as cb).unsubscribed = true
    ∧ (streamLifecycle T send as cb).timerPendingAtExit = false := by
  unfold streamLifecycle at *
  cases send with
  | rejected msg => exact ⟨rfl, rfl⟩
  | ok =>
      rcases hcw : consumeWith cb (runActions T as).queue.items with ⟨ys, oe⟩
      cases oe with
      | some e => simp [hcw, finalizeRun]
      | none => simp [hcw] at h

/-- C5 witness: a stream failing through an idle-timeout firing, with the
consumer consuming everything, unsubscribes and clears the timer. -/
theorem C5_cleanup_witness :
    (streamLifecycle 100 .ok
        [ProducerAction.event (.assistantMessageDelta (some "a")),
         ProducerAction.timerFire] .consumeAll).unsubscribed = true
    ∧ (streamLifecycle 100 .ok
        [ProducerAction.event (.assistantMessageDelta (some "a")),
         ProducerAction.timerFire] .consumeAll).timerPendingAtExit = false :=
  C5_cleanup 100 .ok
    [ProducerAction.event (.assistantMessageDelta (some "a")),
     ProducerAction.timerFire] .consumeAll (by decide)

/-- C3 counterexample to the claim as stated: the sequence
`[session.idle, session.error "boom"]` contains a `session.error` event, yet
the iteration terminates successfully, not with a thrown error (the
`session.error` arriving after `session.idle` is ignored by the closed
queue). -/
theorem C3_counterexample :
    outcomeE 0 [SessionEvent.sessionIdle, SessionEvent.sessionError (some "boom")]
      = .success := by
  decide


/-! ### Chat controller (`useChat`, `src/unnamed/part_006`)

The controller is modelled as a state machine over `ChatState`.  A
`handleSubmit` invocation is a `Submission` script: the submitted text plus
the externally-determined outcomes it observes (readiness, command outcome,
mention-resolution errors, the stream's side-channel callbacks and chunk
flushes, `appendSystemMessage`/`clearMessages` invocations interleaved while
the iteration is suspended, and whether the chunk iteration completed or
threw).

Message ids are the strings returned by `createId`
(`src/unnamed/part_012`, `utils/format.ts`): `randomUUID()` with a
timestamp-based fallback, documented as "Generate a unique identifier".
The model treats ids as opaque strings supplied by the environment at each
`createId()` call site — one field per call site in the scripts — and
builds in no uniqueness: where a property depends on the documented
uniqueness of `createId`, that dependence appears as an explicit hypothesis
of the theorem, never as a hidden feature of the model.

Submissions are guarded against re-entry by the `isStreaming` flag and run
serialized; all intermediate states produced by the
`setMessages`/`setIsStreaming` updates during a submission are recorded in
a trace. -/

/-- JS whitespace test used by `String.prototype.trim`. -/
def jsWhitespace (c : Char) : Bool := c.isWhitespace

/-- The `value.trim()` call of `handleSubmit`. -/
def jsTrim (s : String) : String :=
  ⟨((s.data.dropWhile jsWhitespace).reverse.dropWhile jsWhitespace).reverse⟩

/-- The `startsWith` test of `handleSubmit` (`p` a literal such as `"//"`). -/
def strStarts (p s : String) : Bool := p.data.isPrefixOf s.data

/-- The `slice(n)` call of `handleSubmit`. -/
def strDrop (s : String) (n : Nat) : String := ⟨s.data.drop n⟩

/-- Message roles. -/
inductive Role where
  | user
  | assistant
  | system
deriving DecidableEq, Repr

/-- The `kind` annotation of system/error messages. -/
inductive MsgKind where
  | info
  | error
deriving DecidableEq, Repr

/-- The `turnPhase` metadata of a streaming assistant message. -/
inductive TurnPhase where
  | thinking
  | responding
deriving DecidableEq, Repr

/-- One transcript entry (`Message` in `src/source/types`); `id` is the
opaque string `createId` returned for it; `hasUsage` abstracts the `usage`
payload, whose contents no claim inspects. -/
structure Message where
  id : String
  role : Role
  content : String
  isStreaming : Bool := false
  kind : Option MsgKind := none
  reasoning : Option String := none
  turnPhase : Option TurnPhase := none
  intent : Option String := none
  hasUsage : Bool := false
deriving DecidableEq, Repr

/-- Controller state: the message list, the streaming flag and the
cancellation ref. -/
structure ChatState where
  messages : List Message
  isStreaming : Bool
  cancel : Bool
deriving DecidableEq, Repr

/-- The `appendSystemMessage` callback of `useChat`; `id` is the value its
`createId()` call returned. -/
def appendSystemMessage (s : ChatState) (id content : String) (kind : MsgKind) :
    ChatState :=
  { s with
      messages := s.messages
        ++ [{ id := id, role := .system, content := content
              kind := some kind }] }

/-- The `clearMessages` callback of `useChat`. -/
def clearMessages (s : ChatState) : ChatState :=
  { s with messages := [] }

/-- The `insertBeforeAssistant` helper of `useChat`: splice a system message
in front of the assistant placeholder, appending at the end when the
placeholder is no longer present. -/
def insertBeforeAssistant (prev : List Message) (aid : String) (msg : Message) :
    List Message :=
  match prev.findIdx? (fun m => m.id == aid) with
  | none => prev ++ [msg]
  | some i => prev.take i ++ msg :: prev.drop i

/-- Map-update of the assistant placeholder, as the
`prev.map(msg => msg.id === assistantId ? ... : msg)` updates do. -/
def updateAssistant (s : ChatState) (aid : String) (f : Message → Message) :
    ChatState :=
  { s with messages := s.messages.map (fun m => if m.id == aid then f m else m) }

/-- Insert a fresh system message (with the id its `createId()` call
returned) before the assistant placeholder. -/
def insertSystem (s : ChatState) (aid id content : String) (kind : MsgKind) :
    ChatState :=
  { s with
      messages := insertBeforeAssistant s.messages aid
        { id := id, role := .system, content := content, kind := some kind } }

/-- Observable message-list updates issued while the chunk iteration is in
flight: the `onEvent` handler's inserts (each carrying the id its
`createId()` call returned), the side-channel callbacks, a debounced buffer
flush carrying the buffered text, the cancellation ref being set
externally, and `appendSystemMessage`/`clearMessages` invocations
interleaved mid-submission.  (The textual content of the inserted notices
follows the source; its emoji prefixes are omitted.) -/
inductive StreamStep where
  | toolStart (id : String) (toolName : Option String)
  | compactionStart (id : String)
  | compactionComplete (id : String) (success : Bool) (error : Option String)
  | truncation (id : String) (messagesRemoved : Nat)
  | subagentStarted (id : String) (agentName : String)
      (agentDisplayName : Option String)
  | subagentCompleted (id : String) (agentName : String)
  | subagentFailed (id : String) (agentName : String) (error : String)
  | usage
  | reasoningDelta (chunk : String)
  | turnStart
  | turnEnd
  | intent (value : String)
  | flush (buffered : String)
  | cancelRequested
  | externalAppend (id content : String) (kind : MsgKind)
  | externalClear
deriving DecidableEq, Repr

/-- The id a step's `createId()` call returned, for the steps that create a
message. -/
def StreamStep.newId : StreamStep → Option String
  | .toolStart id _ => some id
  | .compactionStart id => some id
  | .compactionComplete id _ _ => some id
  | .truncation id _ => some id
  | .subagentStarted id _ _ => some id
  | .subagentCompleted id _ => some id
  | .subagentFailed id _ _ => some id
  | .externalAppend id _ _ => some id
  | _ => none

/-- JS truthiness for an optional string (absent and empty are falsy). -/
def truthy : Option String → Bool
  | some v => v ≠ ""
  | none => false

/-- Apply one in-flight update, mirroring the handlers in `handleSubmit`
and the controller callbacks that remain invocable while the iteration is
suspended. -/
def applyStep (aid : String) (s : ChatState) : StreamStep → ChatState
  | .toolStart id name =>
      match name with
      | some n =>
          if n ≠ "" then insertSystem s aid id ("Calling tool: " ++ n) .info
          else s
      | none => s
  | .compactionStart id => insertSystem s aid id "Compacting context..." .info
  | .compactionComplete id success e =>
      insertSystem s aid id
        (if success then "Context compacted -- older messages summarized."
         else "Context compaction failed: " ++ e.getD "unknown error")
        (if success then .info else .error)
  | .truncation id n =>
      insertSystem s aid id
        ("Context truncated (" ++ toString n ++ " messages removed).") .info
  | .subagentStarted id name dn =>
      insertSystem s aid id
        ("Agent started: " ++ (if truthy dn then dn.getD "" else name)) .info
  | .subagentCompleted id name =>
      insertSystem s aid id ("Agent completed: " ++ name) .info
  | .subagentFailed id name e =>
      insertSystem s aid id ("Agent failed: " ++ name ++ " -- " ++ e) .error
  | .usage => updateAssistant s aid (fun m => { m with hasUsage := true })
  | .reasoningDelta c =>
      updateAssistant s aid
        (fun m => { m with reasoning := some ((m.reasoning.getD "") ++ c) })
  | .turnStart =>
      updateAssistant s aid (fun m => { m with turnPhase := some .thinking })
  | .turnEnd => updateAssistant s aid (fun m => { m with turnPhase := none })
  | .intent v => updateAssistant s aid (fun m => { m with intent := some v })
  | .flush b =>
      if b ≠ "" then
        updateAssistant s aid
          (fun m =>
            { m with content := m.content ++ b, turnPhase := some .responding })
      else s
  | .cancelRequested => { s with cancel := true }
  | .externalAppend id c k => appendSystemMessage s id c k
  | .externalClear => clearMessages s

/-- Run the in-flight updates. -/
def runSteps (aid : String) (s : ChatState) (steps : List StreamStep) : ChatState :=
  steps.foldl (applyStep aid) s

/-- States after each in-flight update. -/
def stepTrace (aid : String) (s : ChatState) : List StreamStep → List ChatState
  | [] => []
  | st :: rest => applyStep aid s st :: stepTrace aid (applyStep aid s st) rest

/-- Visible effect of a handled command outcome on the controller state
(`message` appends a system message with the id its `createId()` call
returned, `clear` empties the transcript; the other outcomes do not touch
the message list). -/
inductive CommandEffect where
  | message (id content : String) (kind : MsgKind)
  | clear
  | silent
deriving DecidableEq, Repr

/-- Apply a handled command outcome. -/
def applyCommandEffect (s : ChatState) : CommandEffect → ChatState
  | .message id c k => appendSystemMessage s id c k
  | .clear => clearMessages s
  | .silent => s

/-- How the chunk iteration of one submission ended. -/
inductive SubmitOutcome where
  | success
  | thrown (msg : String)
deriving DecidableEq, Repr

/-- Script of one `handleSubmit` invocation: the submitted text together
with the externally-determined outcomes it observes.  `commandEffect = none`
means `runCommand` (if invoked) did not handle the input; `steps` lists the
in-flight updates that occurred before the iteration ended, the final
buffer flush included.  `noticeId`, `mentionId`, `userId` and `assistantId`
are the values the corresponding `createId()` calls returned (only those on
the taken path matter). -/
structure Submission where
  value : String
  ready : Bool
  copilotErrorMsg : Option String
  noticeId : String
  commandEffect : Option CommandEffect
  mentionErrors : List String
  mentionId : String
  userId : String
  assistantId : String
  steps : List StreamStep
  result : SubmitOutcome
deriving DecidableEq, Repr

/-- The escaped text: strip exactly one leading slash from a `//` input. -/
def submitEscaped (sub : Submission) : String :=
  if strStarts "//" (jsTrim sub.value) then strDrop (jsTrim sub.value) 1
  else jsTrim sub.value

/-- State after the mention-resolution errors, if any, were appended. -/
def mentionState (s : ChatState) (sub : Submission) : ChatState :=
  if sub.mentionErrors.isEmpty then s
  else
    appendSystemMessage s sub.mentionId
      (String.intercalate "\n" sub.mentionErrors) .error

/-- Append the user message and the streaming assistant placeholder
(carrying the ids their `createId()` calls returned), clear the
cancellation ref and set the streaming flag (lines 211–229 of the
source). -/
def submitPrologue (s : ChatState) (escaped uid aid : String) : ChatState :=
  { s with
      messages := s.messages
        ++ [{ id := uid, role := .user, content := escaped },
            { id := aid, role := .assistant, content := ""
              isStreaming := true }]
      isStreaming := true
      cancel := false }

/-- State right after the prologue of a submission. -/
def submitStreamStart (s : ChatState) (sub : Submission) : ChatState :=
  submitPrologue (mentionState s sub) (submitEscaped sub) sub.userId
    sub.assistantId

/-- State after all in-flight updates of a submission ran. -/
def submitStreamed (s : ChatState) (sub : Submission) : ChatState :=
  runSteps sub.assistantId (submitStreamStart s sub) sub.steps

/-- The success epilogue (mark the placeholder done) or the catch block
(overwrite the placeholder with the error-prefixed failure message). -/
def submitEpilogue (aid : String) (result : SubmitOutcome) (s : ChatState) :
    ChatState :=
  match result with
  | .success =>
      updateAssistant s aid
        (fun m => { m with isStreaming := false, turnPhase := none })
  | .thrown msg =>
      updateAssistant s aid
        (fun m =>
          { m with content := "Error: " ++ msg, isStreaming := false
                   kind := some .error })

/-- The `finally` block: clear the streaming flag and the cancellation
ref. -/
def submitFinally (s : ChatState) : ChatState :=
  { s with isStreaming := false, cancel := false }

/-- Result of one `handleSubmit` invocation: every intermediate state, the
final state, whether `runCommand` was invoked, the prompt passed to
`streamResponse` and the recorded user-message content (if any). -/
structure SubmitResult where
  trace : List ChatState
  final : ChatState
  ranCommand : Bool
  sentPrompt : Option String
  userContent : Option String
deriving Repr

/-- The main path of `handleSubmit`: mention errors, user/placeholder
append, in-flight updates, epilogue or catch, then the `finally` block. -/
def submitMain (s : ChatState) (sub : Submission) : SubmitResult :=
  { trace :=
      (if sub.mentionErrors.isEmpty then [] else [mentionState s sub])
        ++ submitStreamStart s sub
          :: stepTrace sub.assistantId (submitStreamStart s sub) sub.steps
        ++ [submitEpilogue sub.assistantId sub.result (submitStreamed s sub),
            submitFinally (submitEpilogue sub.assistantId sub.result
              (submitStreamed s sub))]
    final := submitFinally (submitEpilogue sub.assistantId sub.result
      (submitStreamed s sub))
    ranCommand := !(strStarts "//" (jsTrim sub.value))
    sentPrompt := some (submitEscaped sub)
    userContent := some (submitEscaped sub) }

/-- One `handleSubmit` invocation, following the source's control flow. -/
def runSubmit (s : ChatState) (sub : Submission) : SubmitResult :=
  if jsTrim sub.value = "" ∨ s.isStreaming = true then
    { trace := [], final := s, ranCommand := false
      sentPrompt := none, userContent := none }
  else if sub.ready = false then
    let s1 := appendSystemMessage s sub.noticeId
      (match sub.copilotErrorMsg with
       | some m => "Copilot error: " ++ m
       | none => "Copilot is not ready yet.") .error
    { trace := [s1], final := s1, ranCommand := false
      sentPrompt := none, userContent := none }
  else if strStarts "//" (jsTrim sub.value) = false ∧ sub.commandEffect.isSome then
    let s1 := match sub.commandEffect with
      | some eff => applyCommandEffect s eff
      | none => s
    { trace := [s1], final := s1, ranCommand := true
      sentPrompt := none, userContent := none }
  else
    submitMain s sub

/-- Top-level controller invocations (`id` is the value the
`appendSystemMessage` call's `createId()` returned). -/
inductive ChatAction where
  | appendSystem (id content : String) (kind : MsgKind)
  | clear
  | submit (sub : Submission)
deriving Repr

/-- Intermediate states of one invocation (final state included). -/
def actionTrace (s : ChatState) : ChatAction → List ChatState
  | .appendSystem id c k => [appendSystemMessage s id c k]
  | .clear => [clearMessages s]
  | .submit sub => (runSubmit s sub).trace ++ [(runSubmit s sub).final]

/-- State after one invocation. -/
def actionFinal (s : ChatState) : ChatAction → ChatState
  | .appendSystem id c k => appendSystemMessage s id c k
  | .clear => clearMessages s
  | .submit sub => (runSubmit s sub).final

/-- All states reached along a serialized sequence of invocations. -/
def chatTrace (s : ChatState) : List ChatAction → List ChatState
  | [] => []
  | a :: as => actionTrace s a ++ chatTrace (actionFinal s a) as

/-- Initial controller state. -/
def initChat : ChatState :=
  { messages := [], isStreaming := false, cancel := false }

/-- Number of messages with `isStreaming === true`. -/
def streamCount (ms : List Message) : Nat :=
  ms.countP (fun m => m.isStreaming)

/-- Controller invariant between invocations: at most one streaming
message, and none when the streaming flag is clear.  No assumption on
message ids is made anywhere in this invariant. -/
def ChatInv (s : ChatState) : Prop :=
  streamCount s.messages ≤ 1
  ∧ (s.isStreaming = false → streamCount s.messages = 0)

/-- Invariant while a submission with placeholder id `aid` is in flight:
every streaming message carries the placeholder id, and there is at most
one.  (Several messages may share an id — nothing here assumes id
uniqueness.) -/
def StreamInv (aid : String) (s : ChatState) : Prop :=
  (∀ m ∈ s.messages, m.isStreaming = true → m.id = aid)
  ∧ streamCount s.messages ≤ 1

theorem streamCount_append (a b : List Message) :
    streamCount (a ++ b) = streamCount a + streamCount b := by
  simp [streamCount, List.countP_append]

theorem mem_insertBeforeAssistant (x : Message) (ms : List Message) (aid : String)
    (msg : Message) :
    x ∈ insertBeforeAssistant ms aid msg ↔ x = msg ∨ x ∈ ms := by
  unfold insertBeforeAssistant
  cases h : ms.findIdx? (fun m => m.id == aid) with
  | none =>
      simp only [List.mem_append, List.mem_singleton]
      tauto
  | some i =>
      have hms := List.take_append_drop i ms
      constructor
      · intro hx
        rcases List.mem_append.1 hx with h1 | h2
        · exact Or.inr (by rw [← hms]; exact List.mem_append.2 (Or.inl h1))
        · rcases List.mem_cons.1 h2 with h3 | h4
          · exact Or.inl h3
          · exact Or.inr (by rw [← hms]; exact List.mem_append.2 (Or.inr h4))
      · intro hx
        rcases hx with rfl | h2
        · exact List.mem_append.2 (Or.inr (List.mem_cons_self _ _))
        · rw [← hms] at h2
          rcases List.mem_append.1 h2 with h3 | h4
          · exact List.mem_append.2 (Or.inl h3)
          · exact List.mem_append.2 (Or.inr (List.mem_cons_of_mem _ h4))

theorem streamCount_insertBeforeAssistant (ms : List Message) (aid : String)
    (msg : Message) :
    streamCount (insertBeforeAssistant ms aid msg)
      = streamCount ms + (if msg.isStreaming then 1 else 0) := by
  unfold insertBeforeAssistant
  cases h : ms.findIdx? (fun m => m.id == aid) with
  | none => simp [streamCount, List.countP_append, List.countP_cons]
  | some i =>
      have hms := List.take_append_drop i ms
      rw [streamCount_append]
      rw [show streamCount (msg :: ms.drop i)
            = streamCount (ms.drop i) + (if msg.isStreaming then 1 else 0) from by
          simp [streamCount, List.countP_cons]]
      rw [show streamCount ms
            = streamCount (ms.take i) + streamCount (ms.drop i) from by
          rw [← streamCount_append, hms]]
      omega

theorem ChatInv_append (s : ChatState) (id c : String) (k : MsgKind)
    (h : ChatInv s) : ChatInv (appendSystemMessage s id c k) := by
  obtain ⟨h1, h2⟩ := h
  constructor
  · simpa [appendSystemMessage, streamCount_append, streamCount] using h1
  · intro hf
    have := h2 hf
    simpa [appendSystemMessage, streamCount_append, streamCount] using this

theorem ChatInv_clear (s : ChatState) : ChatInv (clearMessages s) := by
  constructor <;> simp [clearMessages, streamCount]

theorem StreamInv_insertSystem (aid id : String) (s : ChatState) (c : String)
    (k : MsgKind) (h : StreamInv aid s) :
    StreamInv aid (insertSystem s aid id c k) := by
  obtain ⟨h1, h2⟩ := h
  constructor
  · intro m hm hstream
    rcases (mem_insertBeforeAssistant m s.messages aid _).1 hm with rfl | hm2
    · simp at hstream
    · exact h1 m hm2 hstream
  · rw [show (insertSystem s aid id c k).messages
        = insertBeforeAssistant s.messages aid
            { id := id, role := .system, content := c, kind := some k }
      from rfl]
    rw [streamCount_insertBeforeAssistant]
    simpa using h2

theorem StreamInv_append (aid id : String) (s : ChatState) (c : String)
    (k : MsgKind) (h : StreamInv aid s) :
    StreamInv aid (appendSystemMessage s id c k) := by
  obtain ⟨h1, h2⟩ := h
  constructor
  · intro m hm hstream
    simp only [appendSystemMessage, List.mem_append, List.mem_singleton] at hm
    rcases hm with hm | rfl
    · exact h1 m hm hstream
    · simp at hstream
  · simpa [appendSystemMessage, streamCount_append, streamCount] using h2

theorem StreamInv_update (aid : String) (s : ChatState) (f : Message → Message)
    (hstream : ∀ m, (f m).isStreaming = m.isStreaming)
    (hid : ∀ m, (f m).id = m.id)
    (h : StreamInv aid s) : StreamInv aid (updateAssistant s aid f) := by
  obtain ⟨h1, h2⟩ := h
  have hg : ∀ m : Message,
      ((if m.id == aid then f m else m).isStreaming = m.isStreaming)
      ∧ ((if m.id == aid then f m else m).id = m.id) := by
    intro m
    by_cases hc : (m.id == aid) = true
    · simp [hc, hstream, hid]
    · simp [hc]
  constructor
  · intro m hm hstr
    rcases List.mem_map.1 hm with ⟨m0, hm0, rfl⟩
    rw [(hg m0).1] at hstr
    rw [(hg m0).2]
    exact h1 m0 hm0 hstr
  · rw [show (updateAssistant s aid f).messages
        = s.messages.map (fun m => if m.id == aid then f m else m) from rfl]
    rw [streamCount, List.countP_map]
    have hcong : s.messages.countP
        ((fun m : Message => m.isStreaming)
          ∘ (fun m => if m.id == aid then f m else m))
        = s.messages.countP (fun m : Message => m.isStreaming) := by
      apply List.countP_congr
      intro m hm
      simp only [Function.comp_apply]
      rw [(hg m).1]
    rw [hcong]
    exact h2

theorem StreamInv_clear (aid : String) (s : ChatState) :
    StreamInv aid (clearMessages s) := by
  constructor <;> simp [clearMessages, streamCount]

theorem applyStep_inv (aid : String) (s : ChatState) (st : StreamStep)
    (h : StreamInv aid s) : StreamInv aid (applyStep aid s st) := by
  cases st with
  | toolStart id name =>
      cases name with
      | none => exact h
      | some n =>
          by_cases hn : n = ""
          · simpa [applyStep, hn] using h
          · have heq : applyStep aid s (.toolStart id (some n))
                = insertSystem s aid id ("Calling tool: " ++ n) .info := by
              simp [applyStep, hn]
            rw [heq]
            exact StreamInv_insertSystem aid id s _ _ h
  | compactionStart id => exact StreamInv_insertSystem aid id s _ _ h
  | compactionComplete id success e => exact StreamInv_insertSystem aid id s _ _ h
  | truncation id n => exact StreamInv_insertSystem aid id s _ _ h
  | subagentStarted id name dn => exact StreamInv_insertSystem aid id s _ _ h
  | subagentCompleted id name => exact StreamInv_insertSystem aid id s _ _ h
  | subagentFailed id name e => exact StreamInv_insertSystem aid id s _ _ h
  | usage => exact StreamInv_update aid s _ (fun m => rfl) (fun m => rfl) h
  | reasoningDelta c => exact StreamInv_update aid s _ (fun m => rfl) (fun m => rfl) h
  | turnStart => exact StreamInv_update aid s _ (fun m => rfl) (fun m => rfl) h
  | turnEnd => exact StreamInv_update aid s _ (fun m => rfl) (fun m => rfl) h
  | intent v => exact StreamInv_update aid s _ (fun m => rfl) (fun m => rfl) h
  | flush b =>
      by_cases hb : b = ""
      · simpa [applyStep, hb] using h
      · have heq : applyStep aid s (.flush b)
            = updateAssistant s aid
                (fun m =>
                  { m with content := m.content ++ b
                           turnPhase := some .responding }) := by
          simp [applyStep, hb]
        rw [heq]
        exact StreamInv_update aid s _ (fun m => rfl) (fun m => rfl) h
  | cancelRequested => exact h
  | externalAppend id c k => exact StreamInv_append aid id s c k h
  | externalClear => exact StreamInv_clear aid s

theorem stepTrace_inv (aid : String) (steps : List StreamStep) (s : ChatState)
    (h : StreamInv aid s) :
    (∀ st ∈ stepTrace aid s steps, StreamInv aid st)
    ∧ StreamInv aid (runSteps aid s steps) := by
  induction steps generalizing s with
  | nil => exact ⟨by simp [stepTrace], h⟩
  | cons a rest ih =>
      have h1 := applyStep_inv aid s a h
      have hrec := ih (applyStep aid s a) h1
      refine ⟨?_, ?_⟩
      · intro st hst
        simp only [stepTrace, List.mem_cons] at hst
        rcases hst with rfl | hst
        · exact h1
        · exact hrec.1 st hst
      · simpa [runSteps, List.foldl_cons] using hrec.2

theorem submitPrologue_inv (s : ChatState) (escaped uid aid : String)
    (h0 : streamCount s.messages = 0) :
    StreamInv aid (submitPrologue s escaped uid aid) := by
  have hnone : ∀ m ∈ s.messages, ¬(m.isStreaming = true) := by
    intro m hm
    exact List.countP_eq_zero.1 h0 m hm
  constructor
  · intro m hm hstream
    simp only [submitPrologue, List.mem_append, List.mem_cons,
      List.mem_singleton, List.not_mem_nil, or_false] at hm
    rcases hm with hm | rfl | rfl
    · exact absurd hstream (hnone m hm)
    · simp at hstream
    · rfl
  · rw [show (submitPrologue s escaped uid aid).messages
        = s.messages
          ++ [{ id := uid, role := .user, content := escaped },
              { id := aid, role := .assistant, content := ""
                isStreaming := true }] from rfl]
    rw [streamCount_append, h0]
    simp [streamCount, List.countP_cons]

theorem updateAssistant_stop_count (aid : String) (s : ChatState)
    (f : Message → Message) (hf : ∀ m, (f m).isStreaming = false)
    (h : ∀ m ∈ s.messages, m.isStreaming = true → m.id = aid) :
    streamCount (updateAssistant s aid f).messages = 0 := by
  apply List.countP_eq_zero.2
  intro x hx
  rcases List.mem_map.1 hx with ⟨m, hm, rfl⟩
  by_cases hc : (m.id == aid) = true
  · simp [hc, hf]
  · simp only [hc, if_false, Bool.false_eq_true]
    intro hstream
    exact absurd (beq_iff_eq.2 (h m hm hstream)) (by simpa using hc)

theorem submitEpilogue_count (aid : String) (r : SubmitOutcome) (s : ChatState)
    (h : ∀ m ∈ s.messages, m.isStreaming = true → m.id = aid) :
    streamCount (submitEpilogue aid r s).messages = 0 := by
  cases r with
  | success => exact updateAssistant_stop_count aid s _ (fun m => rfl) h
  | thrown msg => exact updateAssistant_stop_count aid s _ (fun m => rfl) h

theorem mentionState_inv (s : ChatState) (sub : Submission) (h : ChatInv s) :
    ChatInv (mentionState s sub)
    ∧ (mentionState s sub).isStreaming = s.isStreaming := by
  unfold mentionState
  split
  · exact ⟨h, rfl⟩
  · exact ⟨ChatInv_append s _ _ _ h, rfl⟩

theorem submitMain_inv (s : ChatState) (sub : Submission) (hinv : ChatInv s)
    (hflag : s.isStreaming = false) :
    (∀ st ∈ (submitMain s sub).trace, streamCount st.messages ≤ 1)
    ∧ ChatInv (submitMain s sub).final := by
  have hm := mentionState_inv s sub hinv
  have hcount0 : streamCount (mentionState s sub).messages = 0 :=
    hm.1.2 (by rw [hm.2, hflag])
  have hstart := submitPrologue_inv (mentionState s sub) (submitEscaped sub)
    sub.userId sub.assistantId hcount0
  have hsteps := stepTrace_inv sub.assistantId sub.steps
    (submitStreamStart s sub) hstart
  have hstreamed : StreamInv sub.assistantId (submitStreamed s sub) := hsteps.2
  have hepi0 : streamCount (submitEpilogue sub.assistantId sub.result
      (submitStreamed s sub)).messages = 0 :=
    submitEpilogue_count _ _ _ hstreamed.1
  constructor
  · intro st hst
    have hst2 : st ∈ (if sub.mentionErrors.isEmpty then ([] : List ChatState)
          else [mentionState s sub])
        ∨ st = submitStreamStart s sub
        ∨ st ∈ stepTrace sub.assistantId (submitStreamStart s sub) sub.steps
        ∨ st = submitEpilogue sub.assistantId sub.result (submitStreamed s sub)
        ∨ st = submitFinally (submitEpilogue sub.assistantId sub.result
            (submitStreamed s sub)) := by
      simpa [submitMain, List.mem_append, List.mem_cons, or_assoc] using hst
    rcases hst2 with hst2 | rfl | hst2 | rfl | rfl
    · by_cases he : sub.mentionErrors.isEmpty = true
      · rw [if_pos he] at hst2
        simp at hst2
      · rw [if_neg he] at hst2
        simp only [List.mem_singleton] at hst2
        subst hst2
        exact hm.1.1
    · exact hstart.2
    · exact (hsteps.1 st hst2).2
    · rw [hepi0]
      omega
    · rw [show (submitFinally (submitEpilogue sub.assistantId sub.result
          (submitStreamed s sub))).messages
          = (submitEpilogue sub.assistantId sub.result
              (submitStreamed s sub)).messages from rfl]
      rw [hepi0]
      omega
  · constructor
    · rw [show (submitMain s sub).final.messages
          = (submitEpilogue sub.assistantId sub.result
              (submitStreamed s sub)).messages from rfl]
      rw [hepi0]
      omega
    · intro _
      rw [show (submitMain s sub).final.messages
          = (submitEpilogue sub.assistantId sub.result
              (submitStreamed s sub)).messages from rfl]
      exact hepi0

theorem runSubmit_inv (s : ChatState) (sub : Submission) (hinv : ChatInv s) :
    (∀ st ∈ (runSubmit s sub).trace, streamCount st.messages ≤ 1)
    ∧ ChatInv (runSubmit s sub).final := by
  unfold runSubmit
  by_cases hg1 : jsTrim sub.value = "" ∨ s.isStreaming = true
  · rw [if_pos hg1]
    exact ⟨by simp, hinv⟩
  · rw [if_neg hg1]
    by_cases hg2 : sub.ready = false
    · rw [if_pos hg2]
      have h1 := ChatInv_append s sub.noticeId
        (match sub.copilotErrorMsg with
         | some m => "Copilot error: " ++ m
         | none => "Copilot is not ready yet.") .error hinv
      refine ⟨?_, h1⟩
      intro st hst
      simp only [List.mem_singleton] at hst
      subst hst
      exact h1.1
    · rw [if_neg hg2]
      by_cases hg3 : strStarts "//" (jsTrim sub.value) = false ∧ sub.commandEffect.isSome
      · rw [if_pos hg3]
        have h1 : ChatInv (match sub.commandEffect with
            | some eff => applyCommandEffect s eff
            | none => s) := by
          cases heff : sub.commandEffect with
          | none => exact hinv
          | some eff =>
              cases eff with
              | message id c k => exact ChatInv_append s id c k hinv
              | clear => exact ChatInv_clear s
              | silent => exact hinv
        refine ⟨?_, h1⟩
        intro st hst
        simp only [List.mem_singleton] at hst
        subst hst
        exact h1.1
      · rw [if_neg hg3]
        have hflag : s.isStreaming = false := by
          rcases Bool.eq_false_or_eq_true s.isStreaming with hf | hf
          · exact absurd (Or.inr hf) hg1
          · exact hf
        exact submitMain_inv s sub hinv hflag

theorem action_inv (s : ChatState) (a : ChatAction) (hinv : ChatInv s) :
    (∀ st ∈ actionTrace s a, streamCount st.messages ≤ 1)
    ∧ ChatInv (actionFinal s a) := by
  cases a with
  | appendSystem id c k =>
      have h1 := ChatInv_append s id c k hinv
      refine ⟨?_, h1⟩
      intro st hst
      simp only [actionTrace, List.mem_singleton] at hst
      subst hst
      exact h1.1
  | clear =>
      have h1 := ChatInv_clear s
      refine ⟨?_, h1⟩
      intro st hst
      simp only [actionTrace, List.mem_singleton] at hst
      subst hst
      exact h1.1
  | submit sub =>
      have h1 := runSubmit_inv s sub hinv
      refine ⟨?_, h1.2⟩
      intro st hst
      simp only [actionTrace, List.mem_append, List.mem_singleton] at hst
      rcases hst with hst | rfl
      · exact h1.1 st hst
      · exact h1.2.1

theorem chatTrace_count (acts : List ChatAction) (s : ChatState) (hinv : ChatInv s) :
    ∀ st ∈ chatTrace s acts, streamCount st.messages ≤ 1 := by
  induction acts generalizing s with
  | nil => simp [chatTrace]
  | cons a as ih =>
      intro st hst
      simp only [chatTrace, List.mem_append] at hst
      rcases hst with hst | hst
      · exact (action_inv s a hinv).1 st hst
      · exact ih (actionFinal s a) (action_inv s a hinv).2 st hst

/-- C6: along any serialized sequence of `appendSystemMessage`,
`clearMessages` and `handleSubmit` invocations from the initial controller
state — including every intermediate state produced by the streaming
callbacks, the completion epilogue, the error path, and
`appendSystemMessage`/`clearMessages` invocations interleaved while a
submission is in flight — at most one message in the list has
`isStreaming === true`.  The proof makes no assumption on the ids
`createId` returned: the invariant holds even if ids collide. -/
theorem C6_at_most_one_streaming (acts : List ChatAction) (st : ChatState)
    (hst : st ∈ chatTrace initChat acts) :
    streamCount st.messages ≤ 1 :=
  chatTrace_count acts initChat
    ⟨by simp [initChat, streamCount], fun _ => by simp [initChat, streamCount]⟩
    st hst

/-- Sample submission for witnesses: a plain prompt that streams one flush,
sees one interleaved system append, and completes. -/
def subHello : Submission :=
  { value := "hello", ready := true, copilotErrorMsg := none
    noticeId := "id-n", commandEffect := none, mentionErrors := []
    mentionId := "id-m", userId := "id-u", assistantId := "id-a"
    steps := [StreamStep.flush "ok", StreamStep.externalAppend "id-x" "note" .info]
    result := .success }

/-- C6 witness: the final state of a completed plain submission is in the
reachable trace and satisfies the bound. -/
theorem C6_at_most_one_streaming_witness :
    streamCount (runSubmit initChat subHello).final.messages ≤ 1 :=
  C6_at_most_one_streaming [ChatAction.submit subHello]
    (runSubmit initChat subHello).final (by decide)

/-- C7: for a submission whose trimmed text begins with `//` (controller
ready and not already streaming), `runCommand` is never invoked, and both
the prompt sent to `streamResponse` and the recorded user-message content
equal the trimmed input with exactly one leading slash removed. -/
theorem C7_double_slash_literal (s : ChatState) (sub : Submission)
    (h1 : strStarts "//" (jsTrim sub.value) = true)
    (h2 : s.isStreaming = false) (h3 : sub.ready = true) :
    (runSubmit s sub).ranCommand = false
    ∧ (runSubmit s sub).sentPrompt = some (strDrop (jsTrim sub.value) 1)
    ∧ (runSubmit s sub).userContent = some (strDrop (jsTrim sub.value) 1) := by
  have hne : ¬(jsTrim sub.value = "" ∨ s.isStreaming = true) := by
    rintro (he | hf)
    · rw [he] at h1
      exact absurd h1 (by decide)
    · rw [h2] at hf
      exact Bool.false_ne_true hf
  unfold runSubmit
  rw [if_neg hne, if_neg (by simp [h3]), if_neg (by simp [h1])]
  refine ⟨?_, ?_, ?_⟩
  · show (!(strStarts "//" (jsTrim sub.value))) = false
    rw [h1]
    rfl
  · show some (submitEscaped sub) = some (strDrop (jsTrim sub.value) 1)
    unfold submitEscaped
    rw [if_pos h1]
  · show some (submitEscaped sub) = some (strDrop (jsTrim sub.value) 1)
    unfold submitEscaped
    rw [if_pos h1]

/-- Sample submission for the C7 witness: the literal-slash escape. -/
def subHelp : Submission :=
  { value := "//help", ready := true, copilotErrorMsg := none
    noticeId := "id-n", commandEffect := none, mentionErrors := []
    mentionId := "id-m", userId := "id-u", assistantId := "id-a"
    steps := [], result := .success }

/-- C7 witness: submitting `"//help"` sends the literal prompt `"/help"`. -/
theorem C7_double_slash_literal_witness :
    (runSubmit initChat subHelp).ranCommand = false
    ∧ (runSubmit initChat subHelp).sentPrompt = some "/help"
    ∧ (runSubmit initChat subHelp).userContent = some "/help" := by
  have h := C7_double_slash_literal initChat subHelp (by decide) rfl rfl
  have he : strDrop (jsTrim subHelp.value) 1 = "/help" := by decide
  refine ⟨h.1, ?_, ?_⟩
  · rw [h.2.1, he]
  · rw [h.2.2, he]

/-- Only a streaming message may carry the placeholder id `aid`: the
invariant that every `createId()` draw other than the placeholder's was
distinct from `aid`, as `createId`'s uniqueness contract
(`src/unnamed/part_012`: `randomUUID()`) provides. -/
def AidFresh (aid : String) (s : ChatState) : Prop :=
  ∀ m ∈ s.messages, m.id = aid → m.isStreaming = true

theorem AidFresh_insertSystem (aid id : String) (s : ChatState) (c : String)
    (k : MsgKind) (hid : id ≠ aid) (h : AidFresh aid s) :
    AidFresh aid (insertSystem s aid id c k) := by
  intro m hm hmid
  rcases (mem_insertBeforeAssistant m s.messages aid _).1 hm with rfl | hm2
  · exact absurd hmid hid
  · exact h m hm2 hmid

theorem AidFresh_append (aid id : String) (s : ChatState) (c : String)
    (k : MsgKind) (hid : id ≠ aid) (h : AidFresh aid s) :
    AidFresh aid (appendSystemMessage s id c k) := by
  intro m hm hmid
  simp only [appendSystemMessage, List.mem_append, List.mem_singleton] at hm
  rcases hm with hm | rfl
  · exact h m hm hmid
  · exact absurd hmid hid

theorem AidFresh_update (aid : String) (s : ChatState) (f : Message → Message)
    (hstream : ∀ m, (f m).isStreaming = m.isStreaming)
    (hid : ∀ m, (f m).id = m.id) (h : AidFresh aid s) :
    AidFresh aid (updateAssistant s aid f) := by
  intro m hm hmid
  rcases List.mem_map.1 hm with ⟨m0, hm0, rfl⟩
  have hg : ((if m0.id == aid then f m0 else m0).isStreaming = m0.isStreaming)
      ∧ ((if m0.id == aid then f m0 else m0).id = m0.id) := by
    by_cases hc : (m0.id == aid) = true
    · simp [hc, hstream, hid]
    · simp [hc]
  rw [hg.1]
  rw [hg.2] at hmid
  exact h m0 hm0 hmid

theorem applyStep_aidFresh (aid : String) (s : ChatState) (st : StreamStep)
    (hid : st.newId ≠ some aid) (h : AidFresh aid s) :
    AidFresh aid (applyStep aid s st) := by
  cases st with
  | toolStart id name =>
      have hne : id ≠ aid := fun he => hid (by rw [he]; rfl)
      cases name with
      | none => exact h
      | some n =>
          by_cases hn : n = ""
          · simpa [applyStep, hn] using h
          · have heq : applyStep aid s (.toolStart id (some n))
                = insertSystem s aid id ("Calling tool: " ++ n) .info := by
              simp [applyStep, hn]
            rw [heq]
            exact AidFresh_insertSystem aid id s _ _ hne h
  | compactionStart id =>
      exact AidFresh_insertSystem aid id s _ _ (fun he => hid (by rw [he]; rfl)) h
  | compactionComplete id success e =>
      exact AidFresh_insertSystem aid id s _ _ (fun he => hid (by rw [he]; rfl)) h
  | truncation id n =>
      exact AidFresh_insertSystem aid id s _ _ (fun he => hid (by rw [he]; rfl)) h
  | subagentStarted id name dn =>
      exact AidFresh_insertSystem aid id s _ _ (fun he => hid (by rw [he]; rfl)) h
  | subagentCompleted id name =>
      exact AidFresh_insertSystem aid id s _ _ (fun he => hid (by rw [he]; rfl)) h
  | subagentFailed id name e =>
      exact AidFresh_insertSystem aid id s _ _ (fun he => hid (by rw [he]; rfl)) h
  | usage => exact AidFresh_update aid s _ (fun m => rfl) (fun m => rfl) h
  | reasoningDelta c => exact AidFresh_update aid s _ (fun m => rfl) (fun m => rfl) h
  | turnStart => exact AidFresh_update aid s _ (fun m => rfl) (fun m => rfl) h
  | turnEnd => exact AidFresh_update aid s _ (fun m => rfl) (fun m => rfl) h
  | intent v => exact AidFresh_update aid s _ (fun m => rfl) (fun m => rfl) h
  | flush b =>
      by_cases hb : b = ""
      · simpa [applyStep, hb] using h
      · have heq : applyStep aid s (.flush b)
            = updateAssistant s aid
                (fun m =>
                  { m with content := m.content ++ b
                           turnPhase := some .responding }) := by
          simp [applyStep, hb]
        rw [heq]
        exact AidFresh_update aid s _ (fun m => rfl) (fun m => rfl) h
  | cancelRequested => exact h
  | externalAppend id c k =>
      exact AidFresh_append aid id s c k (fun he => hid (by rw [he]; rfl)) h
  | externalClear =>
      intro m hm
      simp [applyStep, clearMessages] at hm

theorem runSteps_aidFresh (aid : String) (steps : List StreamStep)
    (s : ChatState) (hids : ∀ st ∈ steps, st.newId ≠ some aid)
    (h : AidFresh aid s) : AidFresh aid (runSteps aid s steps) := by
  induction steps generalizing s with
  | nil => exact h
  | cons a rest ih =>
      rw [show runSteps aid s (a :: rest)
          = runSteps aid (applyStep aid s a) rest from rfl]
      exact ih (applyStep aid s a)
        (fun x hx => hids x (List.mem_cons_of_mem a hx))
        (applyStep_aidFresh aid s a (hids a (List.mem_cons_self a rest)) h)

theorem submitPrologue_aidFresh (s : ChatState) (escaped uid aid : String)
    (hpre : ∀ m ∈ s.messages, m.id ≠ aid) (huid : uid ≠ aid) :
    AidFresh aid (submitPrologue s escaped uid aid) := by
  intro m hm hmid
  simp only [submitPrologue, List.mem_append, List.mem_cons,
    List.mem_singleton, List.not_mem_nil, or_false] at hm
  rcases hm with hm | rfl | rfl
  · exact absurd hmid (hpre m hm)
  · exact absurd hmid huid
  · rfl

/-- C8: for a submission that reaches the streaming phase (non-blank, not
already streaming, ready, not handled as a command), started from a state
with no streaming message, and whose `createId()` draws are distinct from
the placeholder's id — the uniqueness contract of `createId`
(`src/unnamed/part_012`), stated here as explicit hypotheses rather than
built into the model: the final state always has the streaming and
cancellation flags cleared; and when the chunk iteration throws `msg`, the
final message list is the in-flight list with the messages carrying the
placeholder id overwritten (content `"Error: " ++ msg`,
`isStreaming := false`, `kind := error`, other fields kept) — concretely,
the streaming placeholder is overwritten this way, and every other
(non-streaming) message survives in the final list unmodified. -/
theorem C8_error_path (s : ChatState) (sub : Submission)
    (h1 : ¬(jsTrim sub.value = "" ∨ s.isStreaming = true))
    (h2 : sub.ready = true)
    (h3 : ¬(strStarts "//" (jsTrim sub.value) = false ∧ sub.commandEffect.isSome))
    (hms : ∀ m ∈ s.messages, m.isStreaming = false)
    (hpre : ∀ m ∈ s.messages, m.id ≠ sub.assistantId)
    (huid : sub.userId ≠ sub.assistantId)
    (hmid : sub.mentionId ≠ sub.assistantId)
    (hsteps : ∀ st ∈ sub.steps, st.newId ≠ some sub.assistantId) :
    ((runSubmit s sub).final.isStreaming = false
      ∧ (runSubmit s sub).final.cancel = false)
    ∧ (∀ msg : String, sub.result = .thrown msg →
        (runSubmit s sub).final.messages
          = (submitStreamed s sub).messages.map (fun m =>
              if m.id == sub.assistantId then
                { m with content := "Error: " ++ msg, isStreaming := false
                         kind := some MsgKind.error }
              else m)
        ∧ (∀ m ∈ (submitStreamed s sub).messages, m.isStreaming = true →
            { m with content := "Error: " ++ msg, isStreaming := false
                     kind := some MsgKind.error }
              ∈ (runSubmit s sub).final.messages)
        ∧ (∀ m ∈ (submitStreamed s sub).messages, m.isStreaming = false →
            m ∈ (runSubmit s sub).final.messages)) := by
  have hroute : runSubmit s sub = submitMain s sub := by
    unfold runSubmit
    rw [if_neg h1, if_neg (by simp [h2]), if_neg h3]
  have hcount0 : streamCount (mentionState s sub).messages = 0 := by
    unfold mentionState
    split
    · exact List.countP_eq_zero.2 (fun m hm => by simp [hms m hm])
    · apply List.countP_eq_zero.2
      intro m hm
      simp only [appendSystemMessage, List.mem_append, List.mem_singleton] at hm
      rcases hm with hm | rfl
      · simp [hms m hm]
      · simp
  have hSI : StreamInv sub.assistantId (submitStreamed s sub) :=
    (stepTrace_inv sub.assistantId sub.steps (submitStreamStart s sub)
      (submitPrologue_inv (mentionState s sub) (submitEscaped sub)
        sub.userId sub.assistantId hcount0)).2
  have hpre2 : ∀ m ∈ (mentionState s sub).messages, m.id ≠ sub.assistantId := by
    intro m hm
    unfold mentionState at hm
    split at hm
    · exact hpre m hm
    · simp only [appendSystemMessage, List.mem_append, List.mem_singleton] at hm
      rcases hm with hm | rfl
      · exact hpre m hm
      · exact hmid
  have hAF : AidFresh sub.assistantId (submitStreamed s sub) :=
    runSteps_aidFresh sub.assistantId sub.steps (submitStreamStart s sub) hsteps
      (submitPrologue_aidFresh (mentionState s sub) (submitEscaped sub)
        sub.userId sub.assistantId hpre2 huid)
  rw [hroute]
  refine ⟨⟨rfl, rfl⟩, ?_⟩
  intro msg hres
  have hmap : (submitMain s sub).final.messages
      = (submitStreamed s sub).messages.map (fun m =>
          if m.id == sub.assistantId then
            { m with content := "Error: " ++ msg, isStreaming := false
                     kind := some MsgKind.error }
          else m) := by
    show (submitFinally (submitEpilogue sub.assistantId sub.result
        (submitStreamed s sub))).messages = _
    rw [hres]
    rfl
  refine ⟨hmap, ?_, ?_⟩
  · intro m hm hstr
    rw [hmap]
    refine List.mem_map.2 ⟨m, hm, ?_⟩
    rw [if_pos (beq_iff_eq.2 (hSI.1 m hm hstr))]
  · intro m hm hstr
    have hne : m.id ≠ sub.assistantId := by
      intro he
      rw [hAF m hm he] at hstr
      exact absurd hstr (by decide)
    rw [hmap]
    refine List.mem_map.2 ⟨m, hm, ?_⟩
    rw [if_neg (by simpa using hne)]

/-- Sample submission for the C8 witness: a plain prompt whose iteration
throws after a partial flush, an inserted tool notice, an external
cancellation request, and an interleaved system append — all `createId()`
draws distinct. -/
def subBoom : Submission :=
  { value := "hello", ready := true, copilotErrorMsg := none
    noticeId := "id-n", commandEffect := none, mentionErrors := []
    mentionId := "id-m", userId := "id-u", assistantId := "id-a"
    steps := [StreamStep.flush "first half",
              StreamStep.toolStart "id-t" (some "weather"),
              StreamStep.cancelRequested,
              StreamStep.externalAppend "id-x" "note" .info]
    result := .thrown "boom" }

/-- C8 witness: the failing submission ends with cleared flags and the
placeholder overwritten with the error rendering. -/
theorem C8_error_path_witness :
    ((runSubmit initChat subBoom).final.isStreaming = false
      ∧ (runSubmit initChat subBoom).final.cancel = false)
    ∧ (runSubmit initChat subBoom).final.messages
        = (submitStreamed initChat subBoom).messages.map (fun m =>
            if m.id == subBoom.assistantId then
              { m with content := "Error: " ++ "boom", isStreaming := false
                       kind := some MsgKind.error }
            else m) := by
  have h := C8_error_path initChat subBoom (by decide) rfl (by decide)
    (by decide) (by decide) (by decide) (by decide) (by decide)
  exact ⟨h.1, (h.2 "boom" rfl).1⟩

/-! ### Mention extraction (`extractMentions` in `src/source/core/mentions.ts`)

The regex `(^|\s)@(?:"([^"]+)"|'([^']+)'|([^\s]+))` with the `g` flag is
modelled as a left-to-right scanner over the character list: at each
position it tries to match — start-of-string or a whitespace character,
then `@`, then a double-quoted run, a single-quoted run, or a maximal
nonempty run of non-whitespace (the alternation with its backtracking) —
and on failure advances one position.  Each raw capture is then stripped of
the trailing punctuation run `[),.;:!?]+$` (the `raw.replace` call, applied
to every capture) and pushed when nonempty. -/

/-- Membership in the trailing-punctuation class `[),.;:!?]`. -/
def isPunct (c : Char) : Bool :=
  c == ')' || c == ',' || c == '.' || c == ';' || c == ':' || c == '!' || c == '?'

/-- The `raw.replace(/[),.;:!?]+$/, '')` call. -/
def cleanMention (cs : List Char) : List Char :=
  (cs.reverse.dropWhile isPunct).reverse

/-- The quoted alternative `q([^q]+)q`: an opening quote, a maximal nonempty
run of non-quote characters, and the closing quote. -/
def quotedAlt (q : Char) : List Char → Option (List Char × List Char)
  | [] => none
  | c :: rest =>
      if c = q then
        let run := rest.takeWhile (fun d => d ≠ q)
        if run.isEmpty then none
        else
          match rest.drop run.length with
          | d :: suffix => if d = q then some (run, suffix) else none
          | [] => none
      else none

/-- The unquoted alternative `[^\s]+`: a maximal nonempty run of
non-whitespace characters. -/
def unquotedAlt (cs : List Char) : Option (List Char × List Char) :=
  let run := cs.takeWhile (fun c => !jsWhitespace c)
  if run.isEmpty then none else some (run, cs.drop run.length)

/-- The double-quote character. -/
def doubleQuote : Char := Char.ofNat 34

/-- The single-quote character. -/
def singleQuote : Char := Char.ofNat 39

/-- The value alternation after `@`, in the regex's order. -/
def matchValue (cs : List Char) : Option (List Char × List Char) :=
  match quotedAlt doubleQuote cs with
  | some r => some r
  | none =>
      match quotedAlt singleQuote cs with
      | some r => some r
      | none => unquotedAlt cs

/-- Try to match the whole pattern at the current position: `^` only at the
start of the input, otherwise a consumed whitespace character, then `@` and
a value. -/
def tryMatch (cs : List Char) (atStart : Bool) : Option (List Char × List Char) :=
  match cs with
  | '@' :: rest => if atStart then matchValue rest else none
  | w :: '@' :: rest => if jsWhitespace w then matchValue rest else none
  | _ => none

/-- The `exec` loop: emit the cleaned capture of each match and continue
after it; on failure advance one position.  The fuel argument (the input
length) dominates the number of iterations, since every iteration consumes
at least one character. -/
def pushCleaned (raw : List Char) (rest : List String) : List String :=
  if (cleanMention raw).isEmpty then rest
  else (⟨cleanMention raw⟩ : String) :: rest

def scanAux : Nat → List Char → Bool → List String
  | 0, _, _ => []
  | fuel + 1, cs, atStart =>
      match tryMatch cs atStart, cs with
      | some (raw, rest), _ => pushCleaned raw (scanAux fuel rest false)
      | none, [] => []
      | none, _ :: rest => scanAux fuel rest false

/-- The `extractMentions` function of the source. -/
def extractMentions (s : String) : List String :=
  scanAux s.data.length s.data true

theorem head_dropWhile_not (p : Char → Bool) (l : List Char) (c : Char)
    (h : (l.dropWhile p).head? = some c) : p c = false := by
  induction l with
  | nil => simp [List.dropWhile] at h
  | cons a l ih =>
      by_cases hp : p a = true
      · rw [List.dropWhile_cons, if_pos hp] at h
        exact ih h
      · rw [List.dropWhile_cons, if_neg hp] at h
        simp only [List.head?_cons, Option.some_inj] at h
        subst h
        exact Bool.eq_false_iff.2 hp

theorem cleanMention_last (cs : List Char) (c : Char)
    (h : (cleanMention cs).getLast? = some c) : isPunct c = false := by
  unfold cleanMention at h
  rw [List.getLast?_reverse] at h
  exact head_dropWhile_not isPunct cs.reverse c h

theorem scanAux_strip (fuel : Nat) (cs : List Char) (b : Bool) (m : String)
    (hm : m ∈ scanAux fuel cs b) :
    m.data ≠ [] ∧ ∀ c, m.data.getLast? = some c → isPunct c = false := by
  induction fuel generalizing cs b with
  | zero => simp [scanAux] at hm
  | succ fuel ih =>
      rcases htm : tryMatch cs b with _ | ⟨raw, rest⟩
      · cases cs with
        | nil => simp [scanAux, htm] at hm
        | cons a rest2 =>
            rw [show scanAux (fuel + 1) (a :: rest2) b = scanAux fuel rest2 false
                from by simp [scanAux, htm]] at hm
            exact ih rest2 false hm
      · rw [show scanAux (fuel + 1) cs b = pushCleaned raw (scanAux fuel rest false)
            from by simp [scanAux, htm]] at hm
        unfold pushCleaned at hm
        by_cases hcl : (cleanMention raw).isEmpty = true
        · rw [if_pos hcl] at hm
          exact ih rest false hm
        · rw [if_neg hcl] at hm
          rcases List.mem_cons.1 hm with rfl | hm2
          · constructor
            · show cleanMention raw ≠ []
              intro hnil
              rw [hnil] at hcl
              exact hcl rfl
            · intro c hc
              exact cleanMention_last raw c hc
          · exact ih rest false hm2

/-- C9 (amended): the trailing-punctuation stripping of `extractMentions` is
applied to every match — quoted matches included, their quoted content is
*not* taken verbatim: no extracted mention is empty or ends with one of the
punctuation characters `),.;:!?`.  (The original claim, that quoted content
survives verbatim, is refuted by `C9_counterexample`.) -/
theorem C9_strip_applied_to_all (s m : String) (hm : m ∈ extractMentions s) :
    m.data ≠ [] ∧ ∀ c, m.data.getLast? = some c → isPunct c = false :=
  scanAux_strip s.data.length s.data true m hm

/-- C9 witness: in `@a.txt). @"q,"` the unquoted mention is stripped to
`a.txt` — whose last character is not punctuation — and the quoted one to
`q`. -/
theorem C9_strip_applied_to_all_witness :
    ("a.txt".data ≠ []
      ∧ ∀ c, "a.txt".data.getLast? = some c → isPunct c = false)
    ∧ extractMentions "@a.txt). @\"q,\"" = ["a.txt", "q"] :=
  ⟨C9_strip_applied_to_all "@a.txt). @\"q,\"" "a.txt" (by decide), by decide⟩

/-- C9 counterexample to the claim as stated: the quoted mention `@"b,"`
does not resolve to its verbatim quoted content `b,`; the trailing comma is
stripped from the quoted match as well, yielding `b`. -/
theorem C9_counterexample :
    extractMentions "@\"b,\"" = ["b"] ∧ ["b"] ≠ ["b,"] := by
  decide
end Kopilot
